import Mathlib

/-!
Shallow embedding of `src/Auto_Git.py` (class `AutoGitUp`).

External effects (git subprocesses, GitPython calls, the GitHub REST API,
operator input, the filesystem) are modelled by an `Env` record that fixes
the outcome of each external call, and a `World` record that records the
observable effects the program performs (commits, pushes, blobs created,
API calls, log lines).  Each Python method becomes a Lean function
`Env → World → result × World`.  Python exceptions are modelled by
`Except Exc`; an `Except.error` escaping a function models an uncaught
exception propagating to the caller.
-/

deriving instance DecidableEq for Except

namespace AutoGit

/-- Python exception classes that appear in `Auto_Git.py`. -/
inductive Exc where
  | gitCommandError (msg : String)
  | calledProcessError (msg : String)
  | unicodeDecodeError
  | fileNotFoundError (msg : String)
  | typeError
  | valueError (msg : String)
  | connectionError (msg : String)
  | otherError (msg : String)
deriving DecidableEq

/-- Encoding argument passed to `create_git_blob`. -/
inductive BlobEncoding where
  | utf8
  | base64
deriving DecidableEq

/-- A blob created on the hosted API: source path, raw file bytes, encoding flag. -/
structure Blob where
  path : String
  content : List Nat
  encoding : BlobEncoding
deriving DecidableEq

/-- `InputGitTreeElement(file_path, '100644', 'blob', blob.sha)`. -/
structure TreeElement where
  path : String
  mode : String
  objType : String
  sha : String
deriving DecidableEq

/-- Log lines emitted via `logger` / `print` in `Auto_Git.py`, abstracted to events. -/
inductive LogEvent where
  | infoFoundRepo
  | infoInitRepo
  | warnNoRemote
  | infoAddedRemote
  | errorAddRemote
  | errorGetChangedFiles
  | infoUsingRemote (name : String)
  | infoDefaultRemote (name : String)
  | warnDetachedHead
  | errorGetRemoteBranch
  | infoSyncing
  | infoSyncDone
  | errorSyncFailed
  | infoNothingToUpload
  | infoFilesToUpload (files : List String)
  | infoCommitDone (sha : String)
  | errorPushFailed
  | infoPushDone
  | errorGitOperation
  | warnFileNotFound (path : String)
  | errorApiUpload
  | infoAuthUser (login : String)
  | errorInvalidMethod
deriving DecidableEq

/-- Observable state touched by the program: the local repo's remotes and
commits, pushes performed, objects created through the hosted API, the
number of network calls made to the hosted API, and the log. -/
structure World where
  remotes : List String
  localCommits : List String
  pushes : List (String × String)
  apiBlobs : List Blob
  apiTrees : List String
  apiCommits : List String
  refUpdates : List String
  apiCalls : Nat
  log : List LogEvent
deriving DecidableEq

/-- Outcomes of every external call the program can make, fixed up front.
`Except.error e` means the call raises exception `e`. -/
structure Env where
  now : String
  remoteUrlInput : String
  createRemoteResult : Except Exc Unit
  stageResult : Except Exc Unit
  diffResult : Except Exc String
  commitResult : Except Exc String
  selectRemoteInput : String
  activeBranch : Except Exc String
  pushResult : Except Exc (List Bool)
  pullResult : Except Exc Unit
  getRepoResult : Except Exc String
  defaultBranch : String
  getRefResult : Except Exc String
  getCommitResult : Except Exc String
  fileBytes : String → Option (List Nat)
  blobResult : Nat → Except Exc String
  createTreeResult : Except Exc String
  createCommitResult : Except Exc String
  refEditResult : Except Exc Unit
  gitInstalled : Bool
  repoOpenOk : Bool
  githubToken : Option String
  githubUsername : Option String
  githubRepo : Option String
  apiAuthResult : Except Exc String

/-- The newline character (what `'\n'` denotes in the Python source). -/
def nlChar : Char := Char.ofNat 10

/-- Python `s.split(sep)` for a one-character separator:
`"".split(c) = [""]`, `"a\nb".split("\n") = ["a","b"]`, trailing separator
yields a trailing empty field. -/
def pySplit (s : String) (sep : Char) : List String :=
  ((s.data.foldr
      (fun c acc =>
        if c = sep then [] :: acc
        else (c :: acc.headD []) :: acc.tail)
      [[]]).map (fun l => String.mk l))

/-- Python `s.startswith(".")`. -/
def startsWithDot (s : String) : Bool :=
  match s.data with
  | [] => false
  | c :: _ => c = Char.ofNat 46

/-- Python `s.lower()` (restricted to case mapping, as used on the prompt answer). -/
def pyLower (s : String) : String :=
  String.mk (s.data.map Char.toLower)

/-- Python truthiness of an `os.getenv` result: `None` and `""` are falsy. -/
def pyTruthy (s : Option String) : Bool :=
  match s with
  | none => false
  | some v => v != ""

/-- Python list indexing `l[i]`: negative indices count from the end,
out-of-range raises `IndexError` (modelled as `none`). -/
def pyIndex (l : List String) (i : Int) : Option String :=
  if 0 ≤ i ∧ i < (l.length : Int) then l.get? i.toNat
  else if -(l.length : Int) ≤ i ∧ i < 0 then l.get? (i + (l.length : Int)).toNat
  else none

/-- Strict UTF-8 validity of a byte sequence, as enforced by Python's
`bytes.decode('utf-8')`: no overlong encodings, no surrogates (U+D800–U+DFFF),
maximum code point U+10FFFF. -/
def utf8Cont (b : Nat) : Bool := 0x80 ≤ b && b ≤ 0xBF

def utf8Valid : List Nat → Bool
  | [] => true
  | b :: rest =>
    if b ≤ 0x7F then utf8Valid rest
    else if 0xC2 ≤ b && b ≤ 0xDF then
      match rest with
      | c1 :: r => utf8Cont c1 && utf8Valid r
      | [] => false
    else if b = 0xE0 then
      match rest with
      | c1 :: c2 :: r => (0xA0 ≤ c1 && c1 ≤ 0xBF) && utf8Cont c2 && utf8Valid r
      | _ => false
    else if (0xE1 ≤ b && b ≤ 0xEC) || b = 0xEE || b = 0xEF then
      match rest with
      | c1 :: c2 :: r => utf8Cont c1 && utf8Cont c2 && utf8Valid r
      | _ => false
    else if b = 0xED then
      match rest with
      | c1 :: c2 :: r => (0x80 ≤ c1 && c1 ≤ 0x9F) && utf8Cont c2 && utf8Valid r
      | _ => false
    else if b = 0xF0 then
      match rest with
      | c1 :: c2 :: c3 :: r =>
          (0x90 ≤ c1 && c1 ≤ 0xBF) && utf8Cont c2 && utf8Cont c3 && utf8Valid r
      | _ => false
    else if 0xF1 ≤ b && b ≤ 0xF3 then
      match rest with
      | c1 :: c2 :: c3 :: r =>
          utf8Cont c1 && utf8Cont c2 && utf8Cont c3 && utf8Valid r
      | _ => false
    else if b = 0xF4 then
      match rest with
      | c1 :: c2 :: c3 :: r =>
          (0x80 ≤ c1 && c1 ≤ 0x8F) && utf8Cont c2 && utf8Cont c3 && utf8Valid r
      | _ => false
    else false

/-- `get_changed_files`: run `git add .`, then `git diff --name-only --cached`,
split the decoded stdout on newlines and keep the non-empty names that do not
start with a dot.  `subprocess.CalledProcessError` is caught and yields `[]`;
any other exception (e.g. a `UnicodeDecodeError` from `.decode('utf-8')`)
propagates. -/
def get_changed_files (env : Env) (w : World) :
    Except Exc (List String) × World :=
  match env.stageResult with
  | .error (.calledProcessError _) =>
      (.ok [], { w with log := w.log ++ [.errorGetChangedFiles] })
  | .error e => (.error e, w)
  | .ok _ =>
    match env.diffResult with
    | .error (.calledProcessError _) =>
        (.ok [], { w with log := w.log ++ [.errorGetChangedFiles] })
    | .error e => (.error e, w)
    | .ok out =>
        (.ok ((pySplit out nlChar).filter
          (fun f => f != "" && !(startsWithDot f))), w)

/-- `_ensure_remote_exists`: when no remote is configured, prompt for a URL;
`"q"` (case-insensitive) aborts with `False`; otherwise `create_remote('origin', url)`
is attempted, a `GitCommandError` is caught and yields `False`, success yields
`True`.  With at least one remote the method returns `True` immediately. -/
def ensure_remote_exists (env : Env) (w : World) :
    Except Exc Bool × World :=
  if w.remotes.isEmpty then
    let w1 : World := { w with log := w.log ++ [.warnNoRemote] }
    if pyLower env.remoteUrlInput = "q" then (.ok false, w1)
    else
      match env.createRemoteResult with
      | .ok _ =>
          (.ok true, { w1 with remotes := w1.remotes ++ ["origin"],
                               log := w1.log ++ [.infoAddedRemote] })
      | .error (.gitCommandError _) =>
          (.ok false, { w1 with log := w1.log ++ [.errorAddRemote] })
      | .error e => (.error e, w1)
  else
    (.ok true, w)

/-- `_sync_with_remote`: `remote.pull(branch)`; a `GitCommandError` is caught
and yields `False`, any other exception propagates. -/
def sync_with_remote (env : Env) (w : World) (_remote _branch : String) :
    Except Exc Bool × World :=
  let w1 : World := { w with log := w.log ++ [.infoSyncing] }
  match env.pullResult with
  | .ok _ => (.ok true, { w1 with log := w1.log ++ [.infoSyncDone] })
  | .error (.gitCommandError _) =>
      (.ok false, { w1 with log := w1.log ++ [.errorSyncFailed] })
  | .error e => (.error e, w1)

/-- The remote-selection part of `_get_remote_branch`: a single remote is used
directly; with several, the operator's numeric answer selects one (empty answer
defaults to the first, `int()` failures and `IndexError` fall back to the first;
if even `remotes[0]` fails the outer handler returns `None`). -/
def select_remote (env : Env) (w : World) : Option String × World :=
  if w.remotes.length = 1 then
    match w.remotes.head? with
    | some r => (some r, { w with log := w.log ++ [.infoUsingRemote r] })
    | none => (none, { w with log := w.log ++ [.errorGetRemoteBranch] })
  else
    let choice := env.selectRemoteInput
    let idx : Option Int :=
      if choice = "" then some 0 else (choice.toInt?).map (fun n => n - 1)
    match idx with
    | some i =>
      match pyIndex w.remotes i with
      | some r => (some r, w)
      | none =>
        match w.remotes.head? with
        | some r => (some r, { w with log := w.log ++ [.infoDefaultRemote r] })
        | none => (none, { w with log := w.log ++ [.errorGetRemoteBranch] })
    | none =>
      match w.remotes.head? with
      | some r => (some r, { w with log := w.log ++ [.infoDefaultRemote r] })
      | none => (none, { w with log := w.log ++ [.errorGetRemoteBranch] })

/-- The branch part of `_get_remote_branch`: `repo.active_branch.name`;
a `TypeError` (detached HEAD) falls back to `"main"` with a warning; any other
exception is caught by the outer handler, which returns `None`. -/
def resolve_branch (env : Env) (w : World) (remote : String) :
    Option (String × String) × World :=
  match env.activeBranch with
  | .ok b => (some (remote, b), w)
  | .error .typeError =>
      (some (remote, "main"), { w with log := w.log ++ [.warnDetachedHead] })
  | .error _ => (none, { w with log := w.log ++ [.errorGetRemoteBranch] })

/-- `_get_remote_branch`: select a remote, resolve the branch; every exception
inside is caught by `except Exception` and turned into `(None, None)`. -/
def get_remote_branch (env : Env) (w : World) :
    Option (String × String) × World :=
  match select_remote env w with
  | (none, w1) => (none, w1)
  | (some remote, w1) => resolve_branch env w1 remote

/-- The timestamp-derived default commit message
`f"update files - {datetime.now().strftime(...)}"`. -/
def default_commit_message (env : Env) : String :=
  "update files - " ++ env.now

/-- `if not commit_message: commit_message = default` — `None` and `""` are falsy. -/
def resolve_message (env : Env) (m : Option String) : String :=
  match m with
  | none => default_commit_message env
  | some s => if s = "" then default_commit_message env else s

/-- The push-and-sync step of `git_upload_by_localconfig`: `remote.push`
(a `GitCommandError` is caught by the method's `except` clause and yields
`False`; an `ERROR` flag on the first push info also yields `False`),
followed by the best-effort sync whose result is ignored. -/
def localconfig_push_and_sync (env : Env) (remote branch : String) (w : World) :
    Except Exc Bool × World :=
  match env.pushResult with
  | .error (.gitCommandError _) =>
      (.ok false, { w with log := w.log ++ [.errorGitOperation] })
  | .error e => (.error e, w)
  | .ok flags =>
    let w6 : World := { w with pushes := w.pushes ++ [(remote, branch)] }
    match flags with
    | true :: _ =>
        (.ok false, { w6 with log := w6.log ++ [.errorPushFailed] })
    | _ =>
      let w7 : World := { w6 with log := w6.log ++ [.infoPushDone] }
      let res := sync_with_remote env w7 remote branch
      match res.1 with
      | .error e => (.error e, res.2)
      | _ => (.ok true, res.2)

/-- The `try` block of `git_upload_by_localconfig`: `index.commit` (a
`GitCommandError` yields `False`), then `_get_remote_branch` (a `None`
remote or falsy branch yields `False`), then push and sync. -/
def localconfig_commit_phase (env : Env) (msg : String) (w : World) :
    Except Exc Bool × World :=
  match env.commitResult with
  | .error (.gitCommandError _) =>
      (.ok false, { w with log := w.log ++ [.errorGitOperation] })
  | .error e => (.error e, w)
  | .ok sha =>
    let w4 : World := { w with localCommits := w.localCommits ++ [msg],
                               log := w.log ++ [.infoCommitDone sha] }
    match get_remote_branch env w4 with
    | (none, w5) => (.ok false, w5)
    | (some (remote, branch), w5) =>
      if branch = "" then (.ok false, w5)
      else localconfig_push_and_sync env remote branch w5

/-- `git_upload_by_localconfig`: ensure a remote, compute the change set
(empty → `False`), resolve the commit message, then run the commit/push/sync
phase inside `try ... except GitCommandError`. -/
def git_upload_by_localconfig (env : Env) (commit_message : Option String)
    (w : World) : Except Exc Bool × World :=
  match ensure_remote_exists env w with
  | (.error e, w1) => (.error e, w1)
  | (.ok false, w1) => (.ok false, w1)
  | (.ok true, w1) =>
    match get_changed_files env w1 with
    | (.error e, w2) => (.error e, w2)
    | (.ok [], w2) =>
        (.ok false, { w2 with log := w2.log ++ [.infoNothingToUpload] })
    | (.ok files, w2) =>
      let w3 : World := { w2 with log := w2.log ++ [.infoFilesToUpload files] }
      localconfig_commit_phase env (resolve_message env commit_message) w3

/-- Record a successful `create_git_blob` call for file `p` with raw bytes
`bs`: the encoding is `utf-8` when the bytes decode as UTF-8, else `base64`. -/
def pushBlob (w : World) (p : String) (bs : List Nat) : World :=
  { w with
    apiBlobs := w.apiBlobs ++
      [⟨p, bs, if utf8Valid bs then BlobEncoding.utf8 else BlobEncoding.base64⟩],
    apiCalls := w.apiCalls + 1 }

/-- The per-file loop of `git_upload_by_envconfig`: read the file
(`FileNotFoundError` → warn and skip), try a UTF-8 decode to pick the blob
encoding, call `create_git_blob` (a failure there propagates to the outer
handler), and collect the tree elements.  `k` counts blob-creation calls. -/
def process_files (env : Env) :
    List String → Nat → World → Except Exc (List TreeElement) × World × Nat
  | [], k, w => (.ok [], w, k)
  | p :: ps, k, w =>
    match env.fileBytes p with
    | none =>
        process_files env ps k { w with log := w.log ++ [.warnFileNotFound p] }
    | some bs =>
      match env.blobResult k with
      | .error e => (.error e, { w with apiCalls := w.apiCalls + 1 }, k + 1)
      | .ok sha =>
        match process_files env ps (k + 1) (pushBlob w p bs) with
        | (.ok elems, w2, k2) =>
            (.ok (⟨p, "100644", "blob", sha⟩ :: elems), w2, k2)
        | (.error e, w2, k2) => (.error e, w2, k2)

/-- The tail of `git_upload_by_envconfig` after the blob loop:
`create_git_tree`, `create_git_commit` (parent = current head), `ref.edit`,
then best-effort sync of the local clone through its first remote. -/
def envconfig_finish (env : Env) (msg : String) (w : World) :
    Except Exc Bool × World :=
  match env.createTreeResult with
  | .error e => (.error e, { w with apiCalls := w.apiCalls + 1 })
  | .ok treeSha =>
    let w7 : World := { w with apiTrees := w.apiTrees ++ [treeSha],
                               apiCalls := w.apiCalls + 1 }
    match env.createCommitResult with
    | .error e => (.error e, { w7 with apiCalls := w7.apiCalls + 1 })
    | .ok newSha =>
      let w8 : World := { w7 with apiCommits := w7.apiCommits ++ [msg],
                                  apiCalls := w7.apiCalls + 1 }
      match env.refEditResult with
      | .error e => (.error e, { w8 with apiCalls := w8.apiCalls + 1 })
      | .ok _ =>
        let w9 : World :=
          { w8 with refUpdates := w8.refUpdates ++ [newSha],
                    apiCalls := w8.apiCalls + 1 }
        match w9.remotes with
        | [] => (.ok true, w9)
        | r :: _ =>
          let res := sync_with_remote env w9 r env.defaultBranch
          match res.1 with
          | .error e => (.error e, res.2)
          | _ => (.ok true, res.2)

/-- The body of the `try` block of `git_upload_by_envconfig`: resolve the
hosted repository, its default branch ref and head commit, compute the change
set (empty → `False`), upload blobs, then `envconfig_finish`. -/
def envconfig_body (env : Env) (msg : String) (w : World) :
    Except Exc Bool × World :=
  match env.getRepoResult with
  | .error e => (.error e, { w with apiCalls := w.apiCalls + 1 })
  | .ok _fullName =>
    let w1 : World := { w with apiCalls := w.apiCalls + 1 }
    match env.getRefResult with
    | .error e => (.error e, { w1 with apiCalls := w1.apiCalls + 1 })
    | .ok _refSha =>
      let w2 : World := { w1 with apiCalls := w1.apiCalls + 1 }
      match env.getCommitResult with
      | .error e => (.error e, { w2 with apiCalls := w2.apiCalls + 1 })
      | .ok _headSha =>
        let w3 : World := { w2 with apiCalls := w2.apiCalls + 1 }
        let gcf := get_changed_files env w3
        match gcf.1 with
        | .error e => (.error e, gcf.2)
        | .ok [] =>
            (.ok false, { gcf.2 with log := gcf.2.log ++ [.infoNothingToUpload] })
        | .ok files =>
          let w5 : World := { gcf.2 with log := gcf.2.log ++ [.infoFilesToUpload files] }
          let pf := process_files env files 0 w5
          match pf.1 with
          | .error e => (.error e, pf.2.1)
          | .ok _elems => envconfig_finish env msg pf.2.1

/-- `git_upload_by_envconfig`: resolve the commit message, then run the body
inside `try ... except Exception`, so every exception is caught, logged and
turned into `False`.  Returns a plain `Bool`: no exception can escape. -/
def git_upload_by_envconfig (env : Env) (commit_message : Option String)
    (w : World) : Bool × World :=
  let msg := resolve_message env commit_message
  match envconfig_body env msg w with
  | (.ok b, w1) => (b, w1)
  | (.error _, w1) => (false, { w1 with log := w1.log ++ [.errorApiUpload] })

/-- `git_upload`: dispatch on the configured method; an unknown method logs an
error and returns `False`. -/
def git_upload (method : String) (env : Env) (commit_message : Option String)
    (w : World) : Except Exc Bool × World :=
  if method = "LOCALCONFIG" then
    git_upload_by_localconfig env commit_message w
  else if method = "ENVCONFIG" then
    let r := git_upload_by_envconfig env commit_message w
    (.ok r.1, r.2)
  else
    (.ok false, { w with log := w.log ++ [.errorInvalidMethod] })

/-- `_ensure_repo_initialized`: open the repo, or initialize one on failure. -/
def ensure_repo_initialized (env : Env) (w : World) : World :=
  if env.repoOpenOk then { w with log := w.log ++ [.infoFoundRepo] }
  else { w with log := w.log ++ [.infoInitRepo] }

/-- The message of the `ValueError` raised by `_load_env`. -/
def envMissingMsg : String :=
  "环境变量缺失。请确保设置了 GITHUB_TOKEN, GITHUB_USERNAME 和 GITHUB_REPO"

/-- `_load_env`: read `GITHUB_TOKEN`, `GITHUB_USERNAME`, `GITHUB_REPO`; if any
is falsy (`None` or empty), raise `ValueError`. -/
def load_env (env : Env) :
    Except Exc (Option String × Option String × Option String) :=
  if pyTruthy env.githubToken && pyTruthy env.githubUsername
      && pyTruthy env.githubRepo then
    .ok (env.githubToken, env.githubUsername, env.githubRepo)
  else
    .error (.valueError envMissingMsg)

/-- `_init_github_api`: authenticate against the hosted API (one network
call); any exception becomes a `ConnectionError`. -/
def init_github_api (env : Env) (w : World) : Except Exc String × World :=
  let w1 : World := { w with apiCalls := w.apiCalls + 1 }
  match env.apiAuthResult with
  | .ok login => (.ok login, { w1 with log := w1.log ++ [.infoAuthUser login] })
  | .error _ => (.error (.connectionError "GitHub API 连接失败"), w1)

/-- The configuration state established by `AutoGitUp.__init__`. -/
structure Config where
  method : String
  token : Option String
  username : Option String
  repoName : Option String
deriving DecidableEq

/-- `AutoGitUp.__init__`: check that git is installed, ensure a repository,
and in `ENVCONFIG` mode load the three environment values (all required) and
only then connect to the hosted API. -/
def AutoGitUp_init (method : String) (env : Env) (w : World) :
    Except Exc Config × World :=
  if ¬ env.gitInstalled then
    (.error (.fileNotFoundError "Git 未在系统中安装，请先安装 Git。"), w)
  else
    let w1 := ensure_repo_initialized env w
    if method = "ENVCONFIG" then
      match load_env env with
      | .error e => (.error e, w1)
      | .ok (t, u, r) =>
        match init_github_api env w1 with
        | (.error e, w2) => (.error e, w2)
        | (.ok _, w2) => (.ok ⟨method, t, u, r⟩, w2)
    else
      (.ok ⟨method, none, none, none⟩, w1)

/-- The result of an external call whose failures, if any, are raised as
`subprocess.CalledProcessError` (the exception class documented for
`subprocess.run(check=True)`). -/
def cpeOnly {α : Type} : Except Exc α → Bool
  | .ok _ => true
  | .error (.calledProcessError _) => true
  | .error _ => false

/-- The result of an external call whose failures, if any, are raised as
`git.GitCommandError` (the exception class documented for GitPython command
failures). -/
def gceOnly {α : Type} : Except Exc α → Bool
  | .ok _ => true
  | .error (.gitCommandError _) => true
  | .error _ => false

/-- An environment in which every external tool call fails (when it fails)
with the exception class documented for it: the two `subprocess.run` calls
with `CalledProcessError`, and the GitPython calls (`create_remote`,
`index.commit`, `remote.push`, `remote.pull`) with `GitCommandError`. -/
def CanonicalEnv (env : Env) : Prop :=
  cpeOnly env.stageResult = true ∧ cpeOnly env.diffResult = true ∧
  gceOnly env.createRemoteResult = true ∧ gceOnly env.commitResult = true ∧
  gceOnly env.pushResult = true ∧ gceOnly env.pullResult = true

/-- Spec-side notion (from the spec's words, **not** from the source), for
comparison with `get_changed_files`: a path naming a hidden file or dotfile
at any directory level, i.e. some `/`-separated component starts with a dot. -/
def specHiddenAnyLevel (p : String) : Bool :=
  (pySplit p (Char.ofNat 47)).any startsWithDot

/-- A baseline environment for concrete runs: every external call succeeds. -/
def env0 : Env where
  now := "2025-01-01 00:00:00"
  remoteUrlInput := "https://example.com/r.git"
  createRemoteResult := .ok ()
  stageResult := .ok ()
  diffResult := .ok "a.txt\n"
  commitResult := .ok "c1"
  selectRemoteInput := ""
  activeBranch := .ok "main"
  pushResult := .ok [false]
  pullResult := .ok ()
  getRepoResult := .ok "user/repo"
  defaultBranch := "main"
  getRefResult := .ok "r1"
  getCommitResult := .ok "h1"
  fileBytes := fun p =>
    if p = "a.txt" then some [104, 105]
    else if p = "b.bin" then some [255, 0]
    else none
  blobResult := fun _ => .ok "bsha"
  createTreeResult := .ok "t1"
  createCommitResult := .ok "n1"
  refEditResult := .ok ()
  gitInstalled := true
  repoOpenOk := true
  githubToken := some "tok"
  githubUsername := some "user"
  githubRepo := some "repo"
  apiAuthResult := .ok "user"

/-- A world with one remote configured and clean traces. -/
def w0 : World where
  remotes := ["origin"]
  localCommits := []
  pushes := []
  apiBlobs := []
  apiTrees := []
  apiCommits := []
  refUpdates := []
  apiCalls := 0
  log := []

/-- A world with no remote configured. -/
def wNoRemote : World where
  remotes := []
  localCommits := []
  pushes := []
  apiBlobs := []
  apiTrees := []
  apiCommits := []
  refUpdates := []
  apiCalls := 0
  log := []

/-- Environment whose staged diff is empty (nothing to publish). -/
def envEmptyDiff : Env := { env0 with diffResult := .ok "" }

/-- Environment whose reconciliation pull fails with a `GitCommandError`. -/
def envPullFails : Env :=
  { env0 with pullResult := .error (.gitCommandError "pull failed") }

/-- Environment in detached-head state: `active_branch` raises `TypeError`. -/
def envDetached : Env := { env0 with activeBranch := .error .typeError }

/-- Environment with a hidden file in a nested directory among the staged files. -/
def envNestedHidden : Env := { env0 with diffResult := .ok "src/.env\na.txt" }

/-- Environment for a hosted-API run with one text and one binary file staged. -/
def envTwoFiles : Env := { env0 with diffResult := .ok "a.txt\nb.bin\n" }

/-- Environment where the operator declines the remote-URL prompt with `"Q"`. -/
def envQuit : Env := { env0 with remoteUrlInput := "Q" }

/-- Environment with the hosted-API token unset. -/
def envNoToken : Env := { env0 with githubToken := none }

/-- Environment where `active_branch` raises an exception other than
`TypeError` after the commit has been created. -/
def envBranchBroken : Env :=
  { env0 with activeBranch := .error (.otherError "boom") }

/-- Environment where `git add .` fails with a `CalledProcessError`. -/
def envStageFails : Env :=
  { env0 with stageResult := .error (.calledProcessError "exit 128") }

/-- Environment where `git diff --name-only --cached` fails with a
`CalledProcessError`. -/
def envDiffFails : Env :=
  { env0 with diffResult := .error (.calledProcessError "exit 129") }

/-! ### Helper lemmas -/

/-- The value computed by `get_changed_files` depends only on the environment,
not on the world it is run in. -/
theorem gcf_fst_const (env : Env) (w w' : World) :
    (get_changed_files env w).1 = (get_changed_files env w').1 := by
  unfold get_changed_files
  rcases hs : env.stageResult with e | u
  · cases e <;> rfl
  · rcases hd : env.diffResult with e | out
    · cases e <;> rfl
    · rfl

/-- `get_changed_files` only appends to the log; every other world field is
left unchanged. -/
theorem gcf_snd_log (env : Env) (w : World) :
    ∃ l, (get_changed_files env w).2 = { w with log := l } := by
  unfold get_changed_files
  rcases hs : env.stageResult with e | u
  · cases e <;> exact ⟨_, rfl⟩
  · rcases hd : env.diffResult with e | out
    · cases e <;> exact ⟨_, rfl⟩
    · exact ⟨_, rfl⟩

/-- `_ensure_remote_exists` only touches the remote list and the log. -/
theorem ensure_snd_shape (env : Env) (w : World) :
    ∃ rs l, (ensure_remote_exists env w).2 = { w with remotes := rs, log := l } := by
  unfold ensure_remote_exists
  by_cases h1 : w.remotes.isEmpty
  · simp only [h1, if_true]
    by_cases h2 : pyLower env.remoteUrlInput = "q"
    · simp only [h2, if_true]; exact ⟨_, _, rfl⟩
    · simp only [h2, if_false]
      rcases hc : env.createRemoteResult with e | u
      · cases e <;> exact ⟨_, _, rfl⟩
      · exact ⟨_, _, rfl⟩
  · simp only [h1, if_false]; exact ⟨_, _, rfl⟩

/-- `_sync_with_remote` only appends to the log. -/
theorem sync_snd_log (env : Env) (w : World) (r b : String) :
    ∃ l, (sync_with_remote env w r b).2 = { w with log := l } := by
  unfold sync_with_remote
  rcases hp : env.pullResult with e | u
  · cases e <;> exact ⟨_, rfl⟩
  · exact ⟨_, rfl⟩

/-- When `create_remote` can only fail with a `GitCommandError`,
`_ensure_remote_exists` never lets an exception escape. -/
theorem ensure_no_exc (env : Env) (w : World)
    (h : gceOnly env.createRemoteResult = true) :
    ∃ b w', ensure_remote_exists env w = (.ok b, w') := by
  unfold ensure_remote_exists
  by_cases h1 : w.remotes.isEmpty
  · simp only [h1, if_true]
    by_cases h2 : pyLower env.remoteUrlInput = "q"
    · simp only [h2, if_true]; exact ⟨_, _, rfl⟩
    · simp only [h2, if_false]
      rcases hc : env.createRemoteResult with e | u
      · cases e <;> simp_all [gceOnly]
      · exact ⟨_, _, rfl⟩
  · simp only [h1, if_false]; exact ⟨_, _, rfl⟩

/-- When the two subprocess calls can only fail with `CalledProcessError`,
`get_changed_files` never lets an exception escape. -/
theorem gcf_no_exc (env : Env) (w : World)
    (h1 : cpeOnly env.stageResult = true) (h2 : cpeOnly env.diffResult = true) :
    ∃ l w', get_changed_files env w = (.ok l, w') := by
  unfold get_changed_files
  rcases hs : env.stageResult with e | u
  · cases e <;> simp_all [cpeOnly]
  · rcases hd : env.diffResult with e | out
    · cases e <;> simp_all [cpeOnly]
    · exact ⟨_, _, rfl⟩

/-- When `remote.pull` can only fail with a `GitCommandError`,
`_sync_with_remote` never lets an exception escape. -/
theorem sync_no_exc (env : Env) (w : World) (r b : String)
    (h : gceOnly env.pullResult = true) :
    ∃ c w', sync_with_remote env w r b = (.ok c, w') := by
  unfold sync_with_remote
  rcases hp : env.pullResult with e | u
  · cases e <;> simp_all [gceOnly]
  · exact ⟨_, _, rfl⟩

/-- When push and pull can only fail with `GitCommandError`, the push-and-sync
phase never lets an exception escape. -/
theorem push_sync_no_exc (env : Env) (r b : String) (w : World)
    (h5 : gceOnly env.pushResult = true) (h6 : gceOnly env.pullResult = true) :
    ∃ c w', localconfig_push_and_sync env r b w = (.ok c, w') := by
  unfold localconfig_push_and_sync sync_with_remote
  rcases hp : env.pushResult with e | flags
  · cases e <;> simp_all [gceOnly]
  · simp only [hp]
    rcases flags with _ | ⟨hd, tl⟩
    · rcases hq : env.pullResult with e2 | u
      · cases e2 <;> simp_all [gceOnly]
      · simp [hq]
    · cases hd
      · rcases hq : env.pullResult with e2 | u
        · cases e2 <;> simp_all [gceOnly]
        · simp [hq]
      · simp

/-- When commit, push and pull can only fail with `GitCommandError`, the
commit phase never lets an exception escape. -/
theorem commit_phase_no_exc (env : Env) (msg : String) (w : World)
    (h4 : gceOnly env.commitResult = true) (h5 : gceOnly env.pushResult = true)
    (h6 : gceOnly env.pullResult = true) :
    ∃ c w', localconfig_commit_phase env msg w = (.ok c, w') := by
  unfold localconfig_commit_phase
  rcases hc : env.commitResult with e | sha
  · cases e <;> simp_all [gceOnly]
  · simp only [hc]
    rcases hB : get_remote_branch env
        { w with localCommits := w.localCommits ++ [msg],
                 log := w.log ++ [.infoCommitDone sha] } with ⟨ob, w5⟩
    rcases ob with _ | ⟨remote, branch⟩
    · simp [hB]
    · simp only [hB]
      by_cases hbr : branch = ""
      · simp [hbr]
      · simp only [hbr, if_false]
        exact push_sync_no_exc env remote branch w5 h5 h6

/-- Under canonical failure classes, `git_upload_by_localconfig` always
returns a boolean: no exception escapes. -/
theorem localconfig_no_exc (env : Env) (m : Option String) (w : World)
    (h : CanonicalEnv env) :
    ∃ b w', git_upload_by_localconfig env m w = (.ok b, w') := by
  obtain ⟨h1, h2, h3, h4, h5, h6⟩ := h
  obtain ⟨b0, w1, hE⟩ := ensure_no_exc env w h3
  obtain ⟨l, w2, hG⟩ := gcf_no_exc env w1 h1 h2
  unfold git_upload_by_localconfig
  cases b0
  · simp [hE]
  · simp only [hE]
    cases l with
    | nil => simp [hG]
    | cons p ps =>
      simp only [hG]
      exact commit_phase_no_exc env (resolve_message env m) _ h4 h5 h6

/-- Projection lemmas: `get_changed_files` leaves every field but the log alone. -/
theorem gcf_localCommits (env : Env) (w : World) :
    ((get_changed_files env w).2).localCommits = w.localCommits := by
  obtain ⟨l, hl⟩ := gcf_snd_log env w; rw [hl]

theorem gcf_pushes (env : Env) (w : World) :
    ((get_changed_files env w).2).pushes = w.pushes := by
  obtain ⟨l, hl⟩ := gcf_snd_log env w; rw [hl]

theorem gcf_apiCommits (env : Env) (w : World) :
    ((get_changed_files env w).2).apiCommits = w.apiCommits := by
  obtain ⟨l, hl⟩ := gcf_snd_log env w; rw [hl]

theorem gcf_refUpdates (env : Env) (w : World) :
    ((get_changed_files env w).2).refUpdates = w.refUpdates := by
  obtain ⟨l, hl⟩ := gcf_snd_log env w; rw [hl]

theorem gcf_apiBlobs (env : Env) (w : World) :
    ((get_changed_files env w).2).apiBlobs = w.apiBlobs := by
  obtain ⟨l, hl⟩ := gcf_snd_log env w; rw [hl]

theorem gcf_remotes (env : Env) (w : World) :
    ((get_changed_files env w).2).remotes = w.remotes := by
  obtain ⟨l, hl⟩ := gcf_snd_log env w; rw [hl]

/-- Projection lemmas: `_ensure_remote_exists` leaves commits and pushes alone. -/
theorem ensure_localCommits (env : Env) (w : World) :
    ((ensure_remote_exists env w).2).localCommits = w.localCommits := by
  obtain ⟨rs, l, hl⟩ := ensure_snd_shape env w; rw [hl]

theorem ensure_pushes (env : Env) (w : World) :
    ((ensure_remote_exists env w).2).pushes = w.pushes := by
  obtain ⟨rs, l, hl⟩ := ensure_snd_shape env w; rw [hl]

/-- `_sync_with_remote` leaves the blob trace alone. -/
theorem sync_apiBlobs (env : Env) (w : World) (r b : String) :
    ((sync_with_remote env w r b).2).apiBlobs = w.apiBlobs := by
  obtain ⟨l, hl⟩ := sync_snd_log env w r b; rw [hl]

/-- The finish phase of the hosted-API upload creates no blobs. -/
theorem envconfig_finish_apiBlobs (env : Env) (msg : String) (w : World) :
    ((envconfig_finish env msg w).2).apiBlobs = w.apiBlobs := by
  unfold envconfig_finish
  rcases ht : env.createTreeResult with e | ts <;>
    rcases hc : env.createCommitResult with e2 | ns <;>
      rcases hre : env.refEditResult with e3 | u <;>
        rcases hw : w.remotes with _ | ⟨r0, rs⟩ <;>
          simp only [ht, hc, hre, hw] <;>
          first
            | rfl
            | (split
               all_goals simp [sync_apiBlobs])

/-- Every blob recorded by the per-file loop that was not already present was
created from the file's raw bytes with the encoding chosen by the UTF-8
decode attempt. -/
theorem process_files_blobs_sound (env : Env) (files : List String) :
    ∀ (k : Nat) (w : World) (b : Blob),
      b ∈ ((process_files env files k w).2.1).apiBlobs →
      b ∈ w.apiBlobs ∨
        (env.fileBytes b.path = some b.content ∧
          b.encoding = (if utf8Valid b.content then BlobEncoding.utf8
                        else BlobEncoding.base64)) := by
  induction files with
  | nil =>
    intro k w b hb
    exact Or.inl (by simpa [process_files] using hb)
  | cons p ps ih =>
    intro k w b hb
    rcases hf : env.fileBytes p with _ | bs
    · simp only [process_files, hf] at hb
      have h2 := ih k _ b hb
      exact h2
    · simp only [process_files, hf] at hb
      rcases hbr : env.blobResult k with e | sha <;> simp only [hbr] at hb
      · exact Or.inl hb
      · rcases hr : process_files env ps (k + 1) (pushBlob w p bs) with ⟨res, w2, k2⟩
        rw [hr] at hb
        have hb2 : b ∈ w2.apiBlobs := by cases res <;> simpa using hb
        have h2 := ih (k + 1) (pushBlob w p bs) b (by rw [hr]; exact hb2)
        rcases h2 with h | h
        · have h' : b ∈ w.apiBlobs ∨
              b = ⟨p, bs, if utf8Valid bs then BlobEncoding.utf8
                   else BlobEncoding.base64⟩ := by
            simpa [pushBlob] using h
          rcases h' with h3 | h3
          · exact Or.inl h3
          · subst h3
            exact Or.inr ⟨hf, rfl⟩
        · exact Or.inr h

/-- The per-file loop only appends to the blob trace. -/
theorem process_files_blobs_mono (env : Env) (files : List String) :
    ∀ (k : Nat) (w : World) (b : Blob), b ∈ w.apiBlobs →
      b ∈ ((process_files env files k w).2.1).apiBlobs := by
  induction files with
  | nil => intro k w b hb; simpa [process_files] using hb
  | cons p ps ih =>
    intro k w b hb
    rcases hf : env.fileBytes p with _ | bs
    · simp only [process_files, hf]
      exact ih k { w with log := w.log ++ [.warnFileNotFound p] } b hb
    · simp only [process_files, hf]
      rcases hbr : env.blobResult k with e | sha <;> simp only [hbr]
      · exact hb
      · rcases hr : process_files env ps (k + 1) (pushBlob w p bs) with ⟨res, w2, k2⟩
        have hmem : b ∈ (pushBlob w p bs).apiBlobs := by
          simp only [pushBlob]
          exact List.mem_append_left _ hb
        have h2 := ih (k + 1) (pushBlob w p bs) b hmem
        rw [hr] at h2
        cases res <;> simpa using h2

/-- When every `create_git_blob` call succeeds, every changed file that can be
read gets a blob with the encoding chosen by the UTF-8 decode attempt. -/
theorem process_files_blobs_complete (env : Env)
    (hall : ∀ j, ∃ s, env.blobResult j = .ok s) (files : List String) :
    ∀ (k : Nat) (w : World) (p : String) (bs : List Nat),
      p ∈ files → env.fileBytes p = some bs →
      (⟨p, bs, if utf8Valid bs then BlobEncoding.utf8 else BlobEncoding.base64⟩ : Blob)
        ∈ ((process_files env files k w).2.1).apiBlobs := by
  induction files with
  | nil => intro k w p bs hp _; exact absurd hp (List.not_mem_nil p)
  | cons q ps ih =>
    intro k w p bs hp hf
    rcases List.mem_cons.mp hp with h | h
    · subst h
      simp only [process_files, hf]
      obtain ⟨s, hs⟩ := hall k
      simp only [hs]
      rcases hr : process_files env ps (k + 1) (pushBlob w p bs) with ⟨res, w2, k2⟩
      have hmem : (⟨p, bs, if utf8Valid bs then BlobEncoding.utf8
          else BlobEncoding.base64⟩ : Blob) ∈ (pushBlob w p bs).apiBlobs := by
        simp [pushBlob]
      have h2 := process_files_blobs_mono env ps (k + 1) (pushBlob w p bs) _ hmem
      rw [hr] at h2
      cases res <;> simpa using h2
    · rcases hfq : env.fileBytes q with _ | bsq
      · simp only [process_files, hfq]
        exact ih k { w with log := w.log ++ [.warnFileNotFound q] } p bs h hf
      · simp only [process_files, hfq]
        obtain ⟨s, hs⟩ := hall k
        simp only [hs]
        rcases hr : process_files env ps (k + 1) (pushBlob w q bsq) with ⟨res, w2, k2⟩
        have h2 := ih (k + 1) (pushBlob w q bsq) p bs h hf
        rw [hr] at h2
        cases res <;> simpa using h2

/-- When the computed change set is empty, the hosted-API body reports
`False` (or aborts with an exception caught by the wrapper) and records no
local commit, no push, no API commit and no ref update. -/
theorem envconfig_body_empty (env : Env) (msg : String) (w : World)
    (hgcf : (get_changed_files env w).1 = .ok []) :
    ((envconfig_body env msg w).1 = .ok false ∨
      ∃ e, (envconfig_body env msg w).1 = .error e) ∧
    (envconfig_body env msg w).2.localCommits = w.localCommits ∧
    (envconfig_body env msg w).2.pushes = w.pushes ∧
    (envconfig_body env msg w).2.apiCommits = w.apiCommits ∧
    (envconfig_body env msg w).2.refUpdates = w.refUpdates := by
  unfold envconfig_body
  rcases hR : env.getRepoResult with e | s1 <;> simp only [hR]
  · refine ⟨Or.inr ⟨e, rfl⟩, ?_, ?_, ?_, ?_⟩ <;> first | rfl | trivial
  · rcases hRef : env.getRefResult with e | s2 <;> simp only [hRef]
    · refine ⟨Or.inr ⟨e, rfl⟩, ?_, ?_, ?_, ?_⟩ <;> first | rfl | trivial
    · rcases hCom : env.getCommitResult with e | s3 <;> simp only [hCom]
      · refine ⟨Or.inr ⟨e, rfl⟩, ?_, ?_, ?_, ?_⟩ <;> first | rfl | trivial
      · rw [gcf_fst_const env _ w, hgcf]
        refine ⟨Or.inl rfl, ?_, ?_, ?_, ?_⟩ <;>
          simp [gcf_localCommits, gcf_pushes, gcf_apiCommits, gcf_refUpdates]

/-- Blob-trace soundness for the whole hosted-API body. -/
theorem envconfig_body_blobs_sound (env : Env) (msg : String) (w : World) :
    ∀ b ∈ ((envconfig_body env msg w).2).apiBlobs,
      b ∈ w.apiBlobs ∨
        (env.fileBytes b.path = some b.content ∧
          b.encoding = (if utf8Valid b.content then BlobEncoding.utf8
                        else BlobEncoding.base64)) := by
  unfold envconfig_body
  rcases hR : env.getRepoResult with e | s1 <;> simp only [hR]
  · exact fun b hb => Or.inl hb
  · rcases hRef : env.getRefResult with e | s2 <;> simp only [hRef]
    · exact fun b hb => Or.inl hb
    · rcases hCom : env.getCommitResult with e | s3 <;> simp only [hCom]
      · exact fun b hb => Or.inl hb
      · intro b hb
        revert hb
        split
        · intro hb
          exact Or.inl (by simpa [gcf_apiBlobs] using hb)
        · intro hb
          exact Or.inl (by simpa [gcf_apiBlobs] using hb)
        · split
          · intro hb
            have h2 := process_files_blobs_sound env _ 0 _ b hb
            rcases h2 with h | h
            · exact Or.inl (by simpa [gcf_apiBlobs] using h)
            · exact Or.inr h
          · intro hb
            rw [envconfig_finish_apiBlobs] at hb
            have h2 := process_files_blobs_sound env _ 0 _ b hb
            rcases h2 with h | h
            · exact Or.inl (by simpa [gcf_apiBlobs] using h)
            · exact Or.inr h

/-- Blob-trace completeness for the whole hosted-API body: when the repository,
ref and head-commit lookups succeed, the change set is `files`, and every blob
creation succeeds, then every readable changed file gets its blob. -/
theorem envconfig_body_blobs_complete (env : Env) (msg : String) (w : World)
    (files : List String)
    (hRepo : ∃ s, env.getRepoResult = .ok s)
    (hRef : ∃ s, env.getRefResult = .ok s)
    (hCom : ∃ s, env.getCommitResult = .ok s)
    (hgcf : (get_changed_files env w).1 = .ok files)
    (hall : ∀ j, ∃ s, env.blobResult j = .ok s) :
    ∀ p ∈ files, ∀ bs, env.fileBytes p = some bs →
      (⟨p, bs, if utf8Valid bs then BlobEncoding.utf8 else BlobEncoding.base64⟩ : Blob)
        ∈ ((envconfig_body env msg w).2).apiBlobs := by
  obtain ⟨s1, h1⟩ := hRepo
  obtain ⟨s2, h2⟩ := hRef
  obtain ⟨s3, h3⟩ := hCom
  unfold envconfig_body
  simp only [h1, h2, h3]
  rw [gcf_fst_const env _ w, hgcf]
  intro p hp bs hbs
  split
  · rename_i heq
    exact Except.noConfusion heq
  · rename_i heq
    injection heq with hfe
    rw [hfe] at hp
    exact absurd hp (List.not_mem_nil p)
  · rename_i files2 heq
    injection heq with hfe
    subst hfe
    split
    · exact process_files_blobs_complete env hall files 0 _ p bs hp hbs
    · rw [envconfig_finish_apiBlobs]
      exact process_files_blobs_complete env hall files 0 _ p bs hp hbs

/-! ### Claim theorems -/

/-- C1: for every publish invocation (either mode) whose computed change set is
empty, the call returns false and performs no commit and no push (local commits,
pushes, hosted-API commits and ref updates are all unchanged). -/
theorem publish_empty_changeset_noop (env : Env) (m : Option String) (w : World)
    (hens : (ensure_remote_exists env w).1 = .ok true)
    (hgcf : (get_changed_files env w).1 = .ok []) :
    ((git_upload_by_localconfig env m w).1 = .ok false ∧
      (git_upload_by_localconfig env m w).2.localCommits = w.localCommits ∧
      (git_upload_by_localconfig env m w).2.pushes = w.pushes) ∧
    ((git_upload_by_envconfig env m w).1 = false ∧
      (git_upload_by_envconfig env m w).2.localCommits = w.localCommits ∧
      (git_upload_by_envconfig env m w).2.pushes = w.pushes ∧
      (git_upload_by_envconfig env m w).2.apiCommits = w.apiCommits ∧
      (git_upload_by_envconfig env m w).2.refUpdates = w.refUpdates) := by
  constructor
  · rcases hE : ensure_remote_exists env w with ⟨r1, w1⟩
    rw [hE] at hens
    have hr1 : r1 = .ok true := hens
    subst hr1
    have hg1 : (get_changed_files env w1).1 = .ok [] := (gcf_fst_const env w1 w).trans hgcf
    rcases hG : get_changed_files env w1 with ⟨g1, w2⟩
    rw [hG] at hg1
    have hg2 : g1 = .ok [] := hg1
    subst hg2
    have h2 : w2.localCommits = w1.localCommits := by
      have hx := gcf_localCommits env w1; rw [hG] at hx; exact hx
    have h3 : w1.localCommits = w.localCommits := by
      have hx := ensure_localCommits env w; rw [hE] at hx; exact hx
    have h4 : w2.pushes = w1.pushes := by
      have hx := gcf_pushes env w1; rw [hG] at hx; exact hx
    have h5 : w1.pushes = w.pushes := by
      have hx := ensure_pushes env w; rw [hE] at hx; exact hx
    unfold git_upload_by_localconfig
    simp only [hE, hG]
    refine ⟨?_, ?_, ?_⟩ <;> simp [h2, h3, h4, h5]
  · have hbody := envconfig_body_empty env (resolve_message env m) w hgcf
    rcases hB : envconfig_body env (resolve_message env m) w with ⟨br, bw⟩
    rw [hB] at hbody
    obtain ⟨hres, hlc, hpu, hac, hru⟩ := hbody
    unfold git_upload_by_envconfig
    rcases hres with h | ⟨e, h⟩
    · have h' : br = .ok false := h
      subst h'
      simp only [hB]
      exact ⟨by trivial, hlc, hpu, hac, hru⟩
    · have h' : br = .error e := h
      subst h'
      simp only [hB]
      exact ⟨by trivial, hlc, hpu, hac, hru⟩

/-- C1 witness: a concrete run with an empty staged diff. -/
theorem publish_empty_changeset_noop_check :
    ((git_upload_by_localconfig envEmptyDiff none w0).1 = .ok false ∧
      (git_upload_by_localconfig envEmptyDiff none w0).2.localCommits = w0.localCommits ∧
      (git_upload_by_localconfig envEmptyDiff none w0).2.pushes = w0.pushes) ∧
    ((git_upload_by_envconfig envEmptyDiff none w0).1 = false ∧
      (git_upload_by_envconfig envEmptyDiff none w0).2.localCommits = w0.localCommits ∧
      (git_upload_by_envconfig envEmptyDiff none w0).2.pushes = w0.pushes ∧
      (git_upload_by_envconfig envEmptyDiff none w0).2.apiCommits = w0.apiCommits ∧
      (git_upload_by_envconfig envEmptyDiff none w0).2.refUpdates = w0.refUpdates) :=
  publish_empty_changeset_noop envEmptyDiff none w0 (by decide) (by decide)

/-- C2: when every external call fails (if at all) with its documented
exception class, `git_upload` always returns a boolean — no exception
propagates to the caller in either mode. -/
theorem publish_no_exception_escapes (method : String) (env : Env)
    (m : Option String) (w : World) (h : CanonicalEnv env) :
    ∃ b w', git_upload method env m w = (.ok b, w') := by
  unfold git_upload
  by_cases h1 : method = "LOCALCONFIG"
  · rw [if_pos h1]
    exact localconfig_no_exc env m w h
  · rw [if_neg h1]
    by_cases h2 : method = "ENVCONFIG"
    · rw [if_pos h2]
      exact ⟨_, _, rfl⟩
    · rw [if_neg h2]
      exact ⟨_, _, rfl⟩

/-- C2 witness: a run whose staging step raises `CalledProcessError` still
returns a boolean. -/
theorem publish_no_exception_escapes_check :
    CanonicalEnv envStageFails ∧
    ∃ b w', git_upload "LOCALCONFIG" envStageFails none w0 = (.ok b, w') :=
  ⟨⟨rfl, rfl, rfl, rfl, rfl, rfl⟩,
    publish_no_exception_escapes "LOCALCONFIG" envStageFails none w0
      ⟨rfl, rfl, rfl, rfl, rfl, rfl⟩⟩

/-- C4 counterexample: `src/.env` is a hidden file at a nested directory
level, yet it appears in the computed change set — the filter only removes
names whose first character is a dot. -/
theorem changed_files_keeps_nested_hidden_file :
    (get_changed_files envNestedHidden w0).1 = .ok ["src/.env", "a.txt"] ∧
    "src/.env" ∈ ["src/.env", "a.txt"] ∧
    specHiddenAnyLevel "src/.env" = true := by
  refine ⟨by decide, by decide, by decide⟩

/-- C4 (amended): the change set is the staged-file list with the empty name
and exactly the names whose first character is a dot (top-level dotfiles and
paths under top-level dot-directories) excluded; nested hidden files stay. -/
theorem changed_files_filter_is_top_level_only (env : Env) (w : World)
    (out : String) (hs : env.stageResult = .ok ()) (hd : env.diffResult = .ok out) :
    ∃ L, (get_changed_files env w).1 = .ok L ∧
      ∀ f, f ∈ L ↔ (f ∈ pySplit out nlChar ∧ f ≠ "" ∧ startsWithDot f = false) := by
  refine ⟨(pySplit out nlChar).filter (fun f => f != "" && !(startsWithDot f)), ?_, ?_⟩
  · simp [get_changed_files, hs, hd]
  · intro f
    simp [List.mem_filter, and_assoc]

/-- C4 witness: the amended statement at the concrete nested-hidden-file diff. -/
theorem changed_files_filter_is_top_level_only_check :
    ∃ L, (get_changed_files envNestedHidden w0).1 = .ok L ∧
      ∀ f, f ∈ L ↔ (f ∈ pySplit "src/.env\na.txt" nlChar ∧ f ≠ "" ∧
        startsWithDot f = false) :=
  changed_files_filter_is_top_level_only envNestedHidden w0 "src/.env\na.txt" rfl rfl

/-- C7: with zero remotes configured, answering `"q"` (case-insensitively) at
the remote-URL prompt makes publish return false with no commit created. -/
theorem quit_prompt_aborts_without_commit (env : Env) (m : Option String)
    (w : World) (hw : w.remotes = []) (hq : pyLower env.remoteUrlInput = "q") :
    (git_upload_by_localconfig env m w).1 = .ok false ∧
    (git_upload_by_localconfig env m w).2.localCommits = w.localCommits := by
  unfold git_upload_by_localconfig ensure_remote_exists
  simp [hw, hq]

/-- C7 witness: the operator answers `"Q"` with no remotes configured. -/
theorem quit_prompt_aborts_without_commit_check :
    (git_upload_by_localconfig envQuit none wNoRemote).1 = .ok false ∧
    (git_upload_by_localconfig envQuit none wNoRemote).2.localCommits =
      wNoRemote.localCommits :=
  quit_prompt_aborts_without_commit envQuit none wNoRemote rfl (by decide)

/-- C8: in hosted-API mode, a missing access token, account name or repository
identifier makes construction fail with the configuration `ValueError` before
any network call is made. -/
theorem envconfig_missing_value_fails_before_network (env : Env) (w : World)
    (hgit : env.gitInstalled = true)
    (hmiss : env.githubToken = none ∨ env.githubUsername = none ∨
      env.githubRepo = none) :
    (AutoGitUp_init "ENVCONFIG" env w).1 = .error (.valueError envMissingMsg) ∧
    (AutoGitUp_init "ENVCONFIG" env w).2.apiCalls = w.apiCalls := by
  unfold AutoGitUp_init load_env ensure_repo_initialized
  rcases hmiss with h | h | h <;>
    rcases hro : env.repoOpenOk with _ | _ <;>
      simp [hgit, h, hro, pyTruthy]

/-- C8 witness: construction with the token unset. -/
theorem envconfig_missing_value_fails_before_network_check :
    (AutoGitUp_init "ENVCONFIG" envNoToken w0).1 =
      .error (.valueError envMissingMsg) ∧
    (AutoGitUp_init "ENVCONFIG" envNoToken w0).2.apiCalls = w0.apiCalls :=
  envconfig_missing_value_fails_before_network envNoToken w0 rfl (Or.inl rfl)

/-- C10: a `CalledProcessError` while staging (`git add .`) or while listing
the staged files (`git diff --name-only --cached`) makes `get_changed_files`
return the empty list, and publish then returns false exactly as it does for a
genuinely empty change set. -/
theorem staging_or_listing_failure_reported_as_empty (env : Env)
    (m : Option String) (w : World) (r msg : String)
    (hw : w.remotes = [r])
    (hfail : env.stageResult = .error (.calledProcessError msg) ∨
      (env.stageResult = .ok () ∧
        env.diffResult = .error (.calledProcessError msg))) :
    (get_changed_files env w).1 = .ok [] ∧
    (git_upload_by_localconfig env m w).1 = .ok false ∧
    (git_upload_by_localconfig
      { env with stageResult := .ok (), diffResult := .ok "" } m w).1 = .ok false := by
  have hsplit : (pySplit "" nlChar).filter
      (fun f => f != "" && !(startsWithDot f)) = [] := by decide
  rcases hfail with h | ⟨h1, h2⟩
  · refine ⟨?_, ?_, ?_⟩
    · simp [get_changed_files, h]
    · unfold git_upload_by_localconfig ensure_remote_exists get_changed_files
      simp [hw, h]
    · unfold git_upload_by_localconfig ensure_remote_exists get_changed_files
      simp [hw, hsplit]
  · refine ⟨?_, ?_, ?_⟩
    · simp [get_changed_files, h1, h2]
    · unfold git_upload_by_localconfig ensure_remote_exists get_changed_files
      simp [hw, h1, h2]
    · unfold git_upload_by_localconfig ensure_remote_exists get_changed_files
      simp [hw, hsplit]

/-- C10 witness: one run where staging fails with exit 128 and one where the
staged-file listing fails with exit 129. -/
theorem staging_or_listing_failure_reported_as_empty_check :
    ((get_changed_files envStageFails w0).1 = .ok [] ∧
      (git_upload_by_localconfig envStageFails none w0).1 = .ok false ∧
      (git_upload_by_localconfig
        { envStageFails with stageResult := .ok (), diffResult := .ok "" }
        none w0).1 = .ok false) ∧
    ((get_changed_files envDiffFails w0).1 = .ok [] ∧
      (git_upload_by_localconfig envDiffFails none w0).1 = .ok false ∧
      (git_upload_by_localconfig
        { envDiffFails with stageResult := .ok (), diffResult := .ok "" }
        none w0).1 = .ok false) :=
  ⟨staging_or_listing_failure_reported_as_empty envStageFails none w0 "origin"
      "exit 128" rfl (Or.inl rfl),
    staging_or_listing_failure_reported_as_empty envDiffFails none w0 "origin"
      "exit 129" rfl (Or.inr ⟨rfl, rfl⟩)⟩

/-- C5: after a successful commit and push in the local strategy, publish
returns true whether the reconciliation pull succeeds or fails with a
`GitCommandError`, and a pull failure is logged without reversing the result. -/
theorem post_push_sync_failure_keeps_success (env : Env) (m : Option String)
    (w : World) (r d sha b : String) (p : String) (ps : List String)
    (flags : List Bool)
    (hw : w.remotes = [r])
    (hs : env.stageResult = .ok ())
    (hd : env.diffResult = .ok d)
    (hne : (pySplit d nlChar).filter (fun f => f != "" && !(startsWithDot f)) = p :: ps)
    (hcommit : env.commitResult = .ok sha)
    (hab : env.activeBranch = .ok b)
    (hb : b ≠ "")
    (hpush : env.pushResult = .ok flags)
    (hflag : flags.head? ≠ some true)
    (hpull : gceOnly env.pullResult = true) :
    (git_upload_by_localconfig env m w).1 = .ok true ∧
    (∀ msg2, env.pullResult = .error (.gitCommandError msg2) →
      LogEvent.errorSyncFailed ∈ (git_upload_by_localconfig env m w).2.log) := by
  have hshape : flags = [] ∨ ∃ tl, flags = false :: tl := by
    rcases flags with _ | ⟨f0, tl⟩
    · exact Or.inl rfl
    · cases f0
      · exact Or.inr ⟨tl, rfl⟩
      · simp at hflag
  constructor
  · rcases hshape with h | ⟨tl, h⟩ <;> subst h <;>
      rcases hpl : env.pullResult with e | u <;>
        (try cases e) <;>
          simp_all [git_upload_by_localconfig, ensure_remote_exists,
            get_changed_files, localconfig_commit_phase, get_remote_branch,
            select_remote, resolve_branch, localconfig_push_and_sync,
            sync_with_remote, gceOnly]
  · intro msg2 hm2
    rcases hshape with h | ⟨tl, h⟩ <;> subst h <;>
      simp_all [git_upload_by_localconfig, ensure_remote_exists,
        get_changed_files, localconfig_commit_phase, get_remote_branch,
        select_remote, resolve_branch, localconfig_push_and_sync,
        sync_with_remote]

/-- C5 witness: concrete run whose reconciliation pull fails with a
`GitCommandError`, yet publish returns true and the failure is logged. -/
theorem post_push_sync_failure_keeps_success_check :
    (git_upload_by_localconfig envPullFails (some "fix") w0).1 = .ok true ∧
    (∀ msg2, envPullFails.pullResult = .error (.gitCommandError msg2) →
      LogEvent.errorSyncFailed ∈
        (git_upload_by_localconfig envPullFails (some "fix") w0).2.log) :=
  post_push_sync_failure_keeps_success envPullFails (some "fix") w0 "origin"
    "a.txt\n" "c1" "main" "a.txt" [] [false] rfl rfl rfl (by decide) rfl rfl
    (by decide) rfl (by decide) rfl

/-- C6: when the active-branch lookup raises `TypeError` (detached head), the
local strategy resolves the branch to the fallback `"main"`, logs a warning,
and publish still succeeds on an otherwise-successful run. -/
theorem detached_head_falls_back_to_main (env : Env) (m : Option String)
    (w : World) (r d sha : String) (p : String) (ps : List String) (tl : List Bool)
    (hw : w.remotes = [r])
    (hdet : env.activeBranch = .error .typeError)
    (hs : env.stageResult = .ok ())
    (hd : env.diffResult = .ok d)
    (hne : (pySplit d nlChar).filter (fun f => f != "" && !(startsWithDot f)) = p :: ps)
    (hcommit : env.commitResult = .ok sha)
    (hpush : env.pushResult = .ok (false :: tl))
    (hpull : gceOnly env.pullResult = true) :
    (get_remote_branch env w).1 = some (r, "main") ∧
    LogEvent.warnDetachedHead ∈ (get_remote_branch env w).2.log ∧
    (git_upload_by_localconfig env m w).1 = .ok true := by
  refine ⟨?_, ?_, ?_⟩
  · simp [get_remote_branch, select_remote, resolve_branch, hw, hdet]
  · simp [get_remote_branch, select_remote, resolve_branch, hw, hdet]
  · rcases hpl : env.pullResult with e | u <;>
      (try cases e) <;>
        simp_all [git_upload_by_localconfig, ensure_remote_exists,
          get_changed_files, localconfig_commit_phase, get_remote_branch,
          select_remote, resolve_branch, localconfig_push_and_sync,
          sync_with_remote, gceOnly]

/-- C6 witness: a concrete detached-head run. -/
theorem detached_head_falls_back_to_main_check :
    (get_remote_branch envDetached w0).1 = some ("origin", "main") ∧
    LogEvent.warnDetachedHead ∈ (get_remote_branch envDetached w0).2.log ∧
    (git_upload_by_localconfig envDetached (some "m") w0).1 = .ok true :=
  detached_head_falls_back_to_main envDetached (some "m") w0 "origin" "a.txt\n"
    "c1" "a.txt" [] [] rfl rfl rfl rfl (by decide) rfl rfl rfl

/-- C9: the commit is created before the remote and branch are resolved, so
when branch resolution fails after the commit, publish returns false while the
new commit remains in the local repository — a false result does not imply the
repository is unchanged. -/
theorem failed_branch_resolution_leaves_commit (env : Env) (w : World)
    (r d sha mstr : String) (e : Exc) (p : String) (ps : List String)
    (hw : w.remotes = [r])
    (hs : env.stageResult = .ok ())
    (hd : env.diffResult = .ok d)
    (hne : (pySplit d nlChar).filter (fun f => f != "" && !(startsWithDot f)) = p :: ps)
    (hcommit : env.commitResult = .ok sha)
    (hm : mstr ≠ "")
    (hab : env.activeBranch = .error e)
    (hnt : e ≠ Exc.typeError) :
    (git_upload_by_localconfig env (some mstr) w).1 = .ok false ∧
    (git_upload_by_localconfig env (some mstr) w).2.localCommits =
      w.localCommits ++ [mstr] ∧
    (git_upload_by_localconfig env (some mstr) w).2.localCommits ≠
      w.localCommits := by
  have hres : resolve_message env (some mstr) = mstr := by
    simp [resolve_message, hm]
  have h2 : (git_upload_by_localconfig env (some mstr) w).2.localCommits =
      w.localCommits ++ [mstr] := by
    cases e <;> simp_all [git_upload_by_localconfig, ensure_remote_exists,
      get_changed_files, localconfig_commit_phase, get_remote_branch,
      select_remote, resolve_branch, resolve_message]
  refine ⟨?_, h2, ?_⟩
  · cases e <;> simp_all [git_upload_by_localconfig, ensure_remote_exists,
      get_changed_files, localconfig_commit_phase, get_remote_branch,
      select_remote, resolve_branch, resolve_message]
  · rw [h2]
    intro hcontra
    simpa using congrArg List.length hcontra

/-- C9 witness: after the commit, `active_branch` raises a non-`TypeError`
exception; publish reports false but the commit is recorded. -/
theorem failed_branch_resolution_leaves_commit_check :
    (git_upload_by_localconfig envBranchBroken (some "m") w0).1 = .ok false ∧
    (git_upload_by_localconfig envBranchBroken (some "m") w0).2.localCommits =
      w0.localCommits ++ ["m"] ∧
    (git_upload_by_localconfig envBranchBroken (some "m") w0).2.localCommits ≠
      w0.localCommits :=
  failed_branch_resolution_leaves_commit envBranchBroken w0 "origin" "a.txt\n"
    "c1" "m" (.otherError "boom") "a.txt" [] rfl rfl rfl (by decide) rfl
    (by decide) rfl (by decide)

/-- C3: in the hosted-API strategy, every blob created during the call was
built from its file's raw bytes with encoding `utf-8` exactly when the bytes
are valid UTF-8 (else `base64`); and when all blob creations succeed, every
readable changed file receives such a blob. -/
theorem hosted_blob_encoding_matches_utf8_decode (env : Env) (m : Option String)
    (w : World) (files : List String)
    (hRepo : ∃ s, env.getRepoResult = .ok s)
    (hRef : ∃ s, env.getRefResult = .ok s)
    (hCom : ∃ s, env.getCommitResult = .ok s)
    (hgcf : (get_changed_files env w).1 = .ok files) :
    (∀ b ∈ ((git_upload_by_envconfig env m w).2).apiBlobs,
        b ∈ w.apiBlobs ∨
          (env.fileBytes b.path = some b.content ∧
            b.encoding = (if utf8Valid b.content then BlobEncoding.utf8
                          else BlobEncoding.base64))) ∧
    ((∀ j, ∃ s, env.blobResult j = .ok s) →
      ∀ p ∈ files, ∀ bs, env.fileBytes p = some bs →
        (⟨p, bs, if utf8Valid bs then BlobEncoding.utf8
          else BlobEncoding.base64⟩ : Blob)
          ∈ ((git_upload_by_envconfig env m w).2).apiBlobs) := by
  have hwrap : ((git_upload_by_envconfig env m w).2).apiBlobs =
      ((envconfig_body env (resolve_message env m) w).2).apiBlobs := by
    unfold git_upload_by_envconfig
    rcases hB : envconfig_body env (resolve_message env m) w with ⟨br, bw⟩
    simp only [hB]
    cases br <;> simp
  constructor
  · intro b hb
    rw [hwrap] at hb
    exact envconfig_body_blobs_sound env (resolve_message env m) w b hb
  · intro hall p hp bs hbs
    rw [hwrap]
    exact envconfig_body_blobs_complete env (resolve_message env m) w files
      hRepo hRef hCom hgcf hall p hp bs hbs

/-- C3 witness: a run with one UTF-8 text file and one binary file. -/
theorem hosted_blob_encoding_matches_utf8_decode_check :
    (∀ b ∈ ((git_upload_by_envconfig envTwoFiles (some "fix") w0).2).apiBlobs,
        b ∈ w0.apiBlobs ∨
          (envTwoFiles.fileBytes b.path = some b.content ∧
            b.encoding = (if utf8Valid b.content then BlobEncoding.utf8
                          else BlobEncoding.base64))) ∧
    ((∀ j, ∃ s, envTwoFiles.blobResult j = .ok s) →
      ∀ p ∈ ["a.txt", "b.bin"], ∀ bs, envTwoFiles.fileBytes p = some bs →
        (⟨p, bs, if utf8Valid bs then BlobEncoding.utf8
          else BlobEncoding.base64⟩ : Blob)
          ∈ ((git_upload_by_envconfig envTwoFiles (some "fix") w0).2).apiBlobs) :=
  hosted_blob_encoding_matches_utf8_decode envTwoFiles (some "fix") w0
    ["a.txt", "b.bin"] ⟨"user/repo", rfl⟩ ⟨"r1", rfl⟩ ⟨"h1", rfl⟩ (by decide)

end AutoGit

section ScratchChecks
open AutoGit

example : pySplit "a\nb" nlChar = ["a", "b"] := by decide
example : pySplit "" nlChar = [""] := by decide
example : pySplit "a.txt\n" nlChar = ["a.txt", ""] := by decide
example : startsWithDot ".git" = true := by decide
example : startsWithDot "src/.env" = false := by decide
example : pyLower "Q" = "q" := by decide
example : utf8Valid [104, 105] = true := by decide
example : utf8Valid [0xFF, 0] = false := by decide
example : utf8Valid [0xE4, 0xBD, 0xA0] = true := by decide

example : (git_upload_by_localconfig env0 (some "fix") w0).1 = .ok true := by decide
example : (git_upload_by_localconfig env0 (some "fix") w0).2.localCommits = ["fix"] := by decide
example : (git_upload_by_localconfig env0 (some "fix") w0).2.pushes = [("origin", "main")] := by decide
example : (git_upload_by_localconfig envEmptyDiff none w0).1 = .ok false := by decide
example : (git_upload_by_envconfig envTwoFiles (some "fix") w0).1 = true := by decide
example : (git_upload_by_envconfig envTwoFiles (some "fix") w0).2.apiBlobs =
    [⟨"a.txt", [104, 105], .utf8⟩, ⟨"b.bin", [255, 0], .base64⟩] := by decide
example : (git_upload_by_localconfig envQuit none wNoRemote).1 = .ok false := by decide
example : (get_changed_files envNestedHidden w0).1 = .ok ["src/.env", "a.txt"] := by decide
example : (AutoGitUp_init "ENVCONFIG" envNoToken w0).1 = .error (.valueError envMissingMsg) := by
  decide
example : (git_upload_by_localconfig envStageFails none w0).1 = .ok false := by decide
example : (git_upload_by_localconfig envBranchBroken (some "m") w0).1 = .ok false := by decide
example : (git_upload_by_localconfig envBranchBroken (some "m") w0).2.localCommits = ["m"] := by
  decide
example : (git_upload_by_localconfig envDetached (some "m") w0).1 = .ok true := by decide
example : (git_upload_by_localconfig envDetached (some "m") w0).2.pushes =
    [("origin", "main")] := by decide
example : (git_upload_by_localconfig envPullFails (some "m") w0).1 = .ok true := by decide
example : LogEvent.errorSyncFailed ∈ (git_upload_by_localconfig envPullFails (some "m") w0).2.log := by
  decide

end ScratchChecks
